import Mathlib

/-!
Verification of the SoupAIDD repository (two scripts: `train_model.py` and
`predict.py`) against its specification.  The scripts are shallowly embedded:
pure computations become Lean functions over `ℕ`, `ℤ`, `ℚ`, `String` and
lists; the linear console scripts become trace-producing functions returning a
list of events (console output, fatal uncaught exceptions, file writes), with
the external collaborators (the sklearn classifier, the CSV file, `joblib`
artifacts, console input) supplied as an explicit environment.
-/

namespace SoupAIDD

/-! ### String primitives

Python string operations (`strip`, `split`, `replace`, `lower`, `join`,
`str(...)`) are modelled by structurally recursive functions over the
underlying character list, so that every definition evaluates inside the
kernel. -/

/-- Characters treated as whitespace by Python's `str.strip()` (the subset
that can actually arise from console input). -/
def isSpaceChar (c : Char) : Bool :=
  c = ' ' || c = '\t' || c = '\n' || c = '\r'

/-- Python `str.strip()` on the underlying character list. -/
def stripChars (l : List Char) : List Char :=
  ((l.dropWhile isSpaceChar).reverse.dropWhile isSpaceChar).reverse

/-- Python `str.strip()`. -/
def strip (s : String) : String := ⟨stripChars s.data⟩

/-- Python `str.split(sep)` for a single-character separator. -/
def splitOnChar (sep : Char) : List Char → List (List Char)
  | [] => [[]]
  | c :: rest =>
    match splitOnChar sep rest with
    | [] => if c = sep then [[], []] else [[c]]
    | g :: gs => if c = sep then [] :: g :: gs else (c :: g) :: gs

/-- Python `str.lower()` restricted to ASCII letters. -/
def lowerStr (s : String) : String :=
  ⟨s.data.map (fun c => if 'A' ≤ c ∧ c ≤ 'Z' then Char.ofNat (c.toNat + 32) else c)⟩

/-- Decimal digits of a natural number, fuel-driven so it reduces in the
kernel. -/
def natDigitsAux : ℕ → ℕ → List Char
  | 0, _ => []
  | fuel + 1, n =>
    if n = 0 then [] else natDigitsAux fuel (n / 10) ++ [Char.ofNat (48 + n % 10)]

/-- Python `str(n)` for a natural number. -/
def natToStr (n : ℕ) : String :=
  if n = 0 then "0" else ⟨natDigitsAux (n + 1) n⟩

/-- Python `', '.join(l)`. -/
def joinComma (l : List String) : String := String.intercalate ", " l

/-- Python `int(s)` on an all-digit string (as `Option`); used to model the
numeric fields accepted by `datetime.strptime`. -/
def parseNat (l : List Char) : Option ℕ :=
  if l ≠ [] ∧ l.all (fun c => '0' ≤ c ∧ c ≤ '9') then
    some (l.foldl (fun acc c => 10 * acc + (c.toNat - 48)) 0)
  else none

/-- Python `float(s)` on a plain decimal literal `[-]digits[.digits]`
(returning `none` where `float` raises `ValueError`).  Exotic accepted forms
(exponents, `inf`, `nan`) are outside the behaviour exercised here. -/
def parseQ (s : String) : Option ℚ :=
  let core : List Char → Option ℚ := fun l =>
    match splitOnChar '.' l with
    | [a] => (parseNat a).map (fun n => (n : ℚ))
    | [a, b] =>
      match parseNat a, parseNat b with
      | some n, some f => some (mkRat (n * 10 ^ b.length + f) (10 ^ b.length))
      | some n, none => if b = [] then some ((n : ℚ)) else none
      | none, some f => if a = [] then some (mkRat f (10 ^ b.length)) else none
      | none, none => none
    | _ => none
  match s.data with
  | '-' :: rest => (core rest).map Neg.neg
  | l => core l

/-! ### Dates

`datetime` functionality used by the scripts: parsing `%Y-%m-%d`, formatting,
`timedelta(days=1)` and `isoweekday()`. -/

/-- A Gregorian calendar date `(year, month, day)`. -/
def Date := ℕ × ℕ × ℕ
deriving DecidableEq

/-- Gregorian leap-year test. -/
def isLeap (y : ℕ) : Bool := (y % 4 = 0 ∧ y % 100 ≠ 0) ∨ y % 400 = 0

/-- Number of days in a Gregorian month. -/
def daysInMonth (y m : ℕ) : ℕ :=
  if m = 2 then (if isLeap y then 29 else 28)
  else if m = 4 ∨ m = 6 ∨ m = 9 ∨ m = 11 then 30
  else 31

/-- Models `datetime.strptime(s, "%Y-%m-%d")` (as `Option`; `none` models a raised
`ValueError`). -/
def parseYMD (s : String) : Option Date :=
  match splitOnChar '-' s.data with
  | [ys, ms, ds] =>
    match parseNat ys, parseNat ms, parseNat ds with
    | some y, some m, some d =>
      if 1 ≤ m ∧ m ≤ 12 ∧ 1 ≤ d ∧ d ≤ daysInMonth y m then some (y, m, d) else none
    | _, _, _ => none
  | _ => none

/-- Models `date + timedelta(days=1)`. -/
def nextDay : Date → Date
  | (y, m, d) =>
    if d < daysInMonth y m then (y, m, d + 1)
    else if m < 12 then (y, m + 1, 1)
    else (y + 1, 1, 1)

/-- Zero-padded two-digit field for `strftime`. -/
def pad2 (n : ℕ) : String := if n < 10 then "0" ++ natToStr n else natToStr n

/-- Models `date.strftime("%Y-%m-%d")`. -/
def fmtDate : Date → String
  | (y, m, d) => natToStr y ++ "-" ++ pad2 m ++ "-" ++ pad2 d

/-- Sakamoto day-of-week table. -/
def sakamotoT : List ℕ := [0, 3, 2, 5, 0, 3, 5, 1, 4, 6, 2, 4]

/-- Models `datetime.isoweekday()`: 1 = Monday … 7 = Sunday, via Sakamoto's
congruence. -/
def isoweekday : Date → ℕ
  | (y, m, d) =>
    let y' := if m < 3 then y - 1 else y
    let w := (y' + y' / 4 - y' / 100 + y' / 400 + sakamotoT.getD (m - 1) 0 + d) % 7
    if w = 0 then 7 else w

/-- Models `str(n)` for a single decimal digit (the script applies `str` to
`isoweekday()`, whose range is 1–7). -/
def strOfDigit (n : ℕ) : String := ⟨[Char.ofNat (48 + n)]⟩

/-! ### Input resolution (predict.py, lines 27–67)

Each console prompt of the Predictor with its default/fallback behaviour. -/

/-- predict.py lines 27–31: a blank date defaults to tomorrow
(`datetime.now() + timedelta(days=1)`), formatted `%Y-%m-%d`. -/
def resolveDateStr (dateInput : String) (now : Date) : String :=
  if strip dateInput = "" then fmtDate (nextDay now) else strip dateInput

/-- predict.py lines 34–37: a blank weekday is derived from the resolved date
string via `strptime(...).isoweekday()`; `none` models the `ValueError`
raised by `strptime` on an unparseable date. -/
def resolveWeekday (weekdayInput dateStr : String) : Option String :=
  if strip weekdayInput = "" then
    (parseYMD dateStr).map (fun d => strOfDigit (isoweekday d))
  else some (strip weekdayInput)

/-- predict.py line 40: the weather lookup table. -/
def weatherMap : List (String × ℚ) :=
  [("晴", 3), ("多云", 2), ("阴", 1), ("雨", 0), ("小雨", 0), ("潮湿", 1), ("干燥", 3)]

/-- predict.py line 43: `weather_map.get(weather_str, 2)` — unrecognized (or
blank) weather falls back to code 2. -/
def weatherCode (s : String) : ℚ :=
  ((weatherMap.find? (fun p => p.1 = s)).map (fun p => p.2)).getD 2

/-- predict.py lines 47–49: a blank temperature defaults to the string
`"20"` before `float` conversion. -/
def resolveTempStr (t : String) : String :=
  if strip t = "" then "20" else strip t

/-- predict.py line 54: `is_weekend = 1 if weekday in ['6', '7'] else 0` —
an exact string comparison against the entered weekday. -/
def isWeekendOf (wd : String) : ℕ := if wd = "6" ∨ wd = "7" then 1 else 0

/-- predict.py line 59: month → season banding. -/
def seasonOf (m : ℕ) : ℕ :=
  if m = 3 ∨ m = 4 ∨ m = 5 then 1
  else if m = 6 ∨ m = 7 ∨ m = 8 then 2
  else if m = 9 ∨ m = 10 ∨ m = 11 then 3
  else 4

/-- predict.py line 67: split the pantry input on commas (full-width commas
first normalized), strip each item, drop blanks. -/
def parseInventory (s : String) : List String :=
  (((splitOnChar ',' (s.data.map (fun c => if c = '，' then ',' else c))).map
      (fun l => strip ⟨l⟩)).filter (fun i => i ≠ ""))

/-! ### Feature schema and history records -/

/-- Ingredient feature columns are those starting with the marker `食材_`
(predict.py line 84, train_model.py line 27). -/
def isIngCol (c : String) : Bool :=
  match c.data with
  | '食' :: '材' :: '_' :: _ => true
  | _ => false

/-- Python `col.replace('食材_', '')`: remove every (non-overlapping,
left-to-right) occurrence of the marker. -/
def stripIngChars : List Char → List Char
  | '食' :: '材' :: '_' :: rest => stripIngChars rest
  | c :: rest => c :: stripIngChars rest
  | [] => []

/-- The display name of an ingredient column (predict.py line 85). -/
def ingName (c : String) : String := ⟨stripIngChars c.data⟩

/-- The six fixed numeric feature columns (train_model.py lines 22–24,
predict.py lines 73–80). -/
def baseCols : List String :=
  ["温度", "天气编码", "月份", "季节编码", "是否周末", "反馈分数"]

/-- One row of `history_cleaned.csv`: the soup label plus the named numeric
columns (ingredient presence columns hold 0/1). -/
structure HRecord where
  soup : String
  cols : List (String × ℚ)
deriving DecidableEq

/-- Cell access `row[col]` (0 for an absent column, matching the
`fillna(0)` convention of train_model.py line 34). -/
def getCol (r : HRecord) (c : String) : ℚ :=
  (((r.cols.find? (fun p => p.1 = c)).map (fun p => p.2)).getD 0)

/-- pandas `df[col].mean()` over a list of rows (the caller guards against
the empty list, predict.py line 130). -/
def colMean (rows : List HRecord) (c : String) : ℚ :=
  ((rows.map (fun r => getCol r c)).sum) / (rows.length : ℚ)

/-- predict.py lines 132–135: the ingredient columns whose historical mean
presence exceeds 0.5 for the rows of the top soup. -/
def typicalCols (featureColumns : List String) (rows : List HRecord) : List String :=
  featureColumns.filter (fun c => isIngCol c && decide (mkRat 1 2 < colMean rows c))

/-- The display names of the typical ingredient columns. -/
def typicalIngredients (featureColumns : List String) (rows : List HRecord) : List String :=
  (typicalCols featureColumns rows).map ingName

/-- predict.py line 140: `[ing for ing in typical_ingredients if ing not in
inventory_list]`. -/
def missingOf (typical inventory : List String) : List String :=
  typical.filter (fun i => ¬ inventory.contains i)

/-! ### Feature vector construction (predict.py, lines 73–89) -/

/-- The value the prediction DataFrame holds for one schema column: the six
fixed numeric fields (lines 73–80, feedback score fixed at 75), an indicator
for each ingredient column (lines 83–86), and `none` — a `KeyError` on the
reindex of line 89 — for a column the frame never received. -/
def encodeCol (temp wc : ℚ) (m season iw : ℕ) (inventory : List String)
    (c : String) : Option ℚ :=
  if c = "温度" then some temp
  else if c = "天气编码" then some wc
  else if c = "月份" then some (m : ℚ)
  else if c = "季节编码" then some (season : ℚ)
  else if c = "是否周末" then some (iw : ℚ)
  else if c = "反馈分数" then some 75
  else if isIngCol c then some (if inventory.contains (ingName c) then 1 else 0)
  else none

/-- Sequence a column-wise encoding over the whole schema, failing if any
single column fails. -/
def optionMapAll (f : α → Option β) : List α → Option (List β)
  | [] => some []
  | a :: l =>
    match f a, optionMapAll f l with
    | some b, some bs => some (b :: bs)
    | _, _ => none

/-- predict.py line 89: `tomorrow_data[feature_columns]` — the feature vector
reindexed to exactly the stored schema order. -/
def tomorrowFeatures (featureColumns : List String) (temp wc : ℚ)
    (m season iw : ℕ) (inventory : List String) : Option (List ℚ) :=
  optionMapAll (encodeCol temp wc m season iw inventory) featureColumns

/-- A schema is valid when every column is either a fixed numeric field or an
ingredient column — exactly the shape `train_model.py` persists. -/
def validSchemaB (featureColumns : List String) : Bool :=
  featureColumns.all (fun c => baseCols.contains c || isIngCol c)

/-! ### Ranking (predict.py, lines 93–98)

`np.argsort(probabilities)[-3:][::-1]`.  `argsort` is modelled as a stable
ascending sort of the indices by value (numpy's sort runs insertion sort on
arrays of this size, which is stable); `[-3:]` keeps the last `min 3 n`
entries and `[::-1]` reverses them. -/

/-- Insert index `i` into an ascending run, after every index of key ≤ its
own (the stable position for an index arriving later). -/
def insertIdx (p : List ℚ) (i : ℕ) : List ℕ → List ℕ
  | [] => [i]
  | j :: rest =>
    if p.getD j 0 ≤ p.getD i 0 then j :: insertIdx p i rest else i :: j :: rest

/-- Stable ascending argsort of `p` by value. -/
def argsortQ (p : List ℚ) : List ℕ :=
  (List.range p.length).foldl (fun acc i => insertIdx p i acc) []

/-- predict.py line 96: `np.argsort(probabilities)[-3:][::-1]`. -/
def top3Indices (p : List ℚ) : List ℕ :=
  ((argsortQ p).drop (p.length - 3)).reverse

/-! ### Rationale rules (predict.py, lines 110–118) -/

/-- The `reasons` list: weekend, low weather code, cold, and hot rules, in
source order (`if` / `if` / `if` / `elif`). -/
def reasons (iw : ℕ) (wc temp : ℚ) : List String :=
  (if iw ≠ 0 then ["周末时间充裕，适合煲老火汤"] else []) ++
  (if wc ≤ 1 then ["天气阴/雨，适合暖身汤品"] else []) ++
  (if temp < 15 then ["气温较低，需要温补"]
   else if temp > 28 then ["天气炎热，适合清淡解腻"] else [])

/-! ### The Predictor script as a trace (predict.py, top to bottom)

Console output, the one structured `top-1 recommendation` print (line 105),
file appends, and uncaught exceptions become events; a fatal event ends the
trace, modelling an exception aborting the interpreter. -/

/-- One observable step of a script run. -/
inductive Event where
  | out (s : String)
  | outN (s : String) (q : ℚ)
  | top1 (soup : String)
  | logRec (date soup weather : String) (prob temp : ℚ)
  | saved (artifact : String)
  | fatal (e : String)
  | exited
deriving DecidableEq

/-- Message of predict.py line 20, shown when any artifact of the trained
triple is absent. -/
def loadFailMsg : String := "❌ 错误：找不到模型文件！请先运行 train_model.py 训练模型"

/-- An absent `history_cleaned.csv` (train_model.py line 14, predict.py
line 127). -/
def historyFatalMsg : String := "FileNotFoundError: history_cleaned.csv"

/-- Message for `datetime.strptime` raising on a malformed date (predict.py lines 36
and 58). -/
def dateParseMsg : String := "ValueError: time data does not match format %Y-%m-%d"

/-- Message for `float(...)` raising on a malformed temperature (predict.py line 50). -/
def tempParseMsg : String := "ValueError: could not convert string to float"

/-- A schema column the prediction frame does not hold (predict.py
line 89). -/
def keyErrorMsg : String := "KeyError: feature column missing"

/-- The `"=" * 50` separator line. -/
def sep50 : String := ⟨List.replicate 50 '='⟩

/-- Everything the run needs from the outside world: which artifacts exist
on disk, their contents, the history file, the wall clock, the five console
answers, and the classifier's output distribution (the fitted
`RandomForestClassifier` is opaque; `probs` is the vector
`model.predict_proba(x)[0]`). -/
structure Env where
  modelPresent : Bool
  encoderPresent : Bool
  schemaPresent : Bool
  classes : List String
  featureColumns : List String
  history : Option (List HRecord)
  now : Date
  dateInput : String
  weekdayInput : String
  weatherInput : String
  tempInput : String
  inventoryInput : String
  saveAnswer : String
  probs : List ℚ

/-- The top-ranked soup name (predict.py lines 96–97, first entry). -/
def topSoup (classes : List String) (probs : List ℚ) : String :=
  ((top3Indices probs).map (fun i => classes.getD i "")).getD 0 ""

/-- predict.py lines 130–146: explanation of the top prediction against the
history — typical ingredients, missing ones, or "ready to cook". -/
def explainBody (top : String) (featureColumns inventory : List String)
    (hist : List HRecord) : List Event :=
  let sh := hist.filter (fun r => r.soup = top)
  if sh.isEmpty then [Event.out "   建议查看历史记录了解配方"]
  else
    let typical := typicalIngredients featureColumns sh
    let missing := missingOf typical inventory
    Event.out ("   通常需要：" ++ joinComma typical) ::
    (if missing.isEmpty then [Event.out "   ✅ 食材齐全，可以开煲！"]
     else [Event.out ("   ⚠️  缺少食材：" ++ joinComma missing ++ "（建议购买）")])

/-- predict.py lines 149–153: alternative candidates with probability above
the 5% display threshold. -/
def altEvents (soups : List String) (top3probs : List ℚ) : List Event :=
  if 1 < soups.length then
    Event.out "\n🥈 备选方案：" ::
    ((List.range soups.length).drop 1).filterMap (fun i =>
      if mkRat 1 20 < top3probs.getD i 0 then
        some (Event.outN (natToStr (i + 1) ++ ". " ++ soups.getD i "" ++ " (概率%)")
          (top3probs.getD i 0 * 100))
      else none)
  else []

/-- predict.py lines 160–165: the optional audit-log append. -/
def savePhase (e : Env) (dateStr s0 : String) (p0 temp : ℚ) : List Event :=
  if lowerStr (strip e.saveAnswer) = "y" then
    [Event.logRec dateStr s0 (strip e.weatherInput) (p0 * 100) temp,
     Event.out "✅ 已保存到 predictions_log.txt"]
  else []

/-- predict.py lines 101–165: the result section.  The `reasons` list of
lines 110–118 is computed by the script but never printed — line 107 prints
the bare label `理由：` and nothing ever follows it.  Reading
`history_cleaned.csv` (line 127) happens only after the top-1 recommendation
is printed; if the file is absent the uncaught `FileNotFoundError` ends the
run there. -/
def outputPhase (e : Env) (inventory : List String) (iw : ℕ) (wc temp : ℚ)
    (dateStr : String) : List Event :=
  let idxs := top3Indices e.probs
  let soups := idxs.map (fun i => e.classes.getD i "")
  let top3probs := idxs.map (fun i => e.probs.getD i 0)
  let s0 := soups.getD 0 ""
  let p0 := top3probs.getD 0 0
  [Event.out sep50, Event.out "🍲 明天汤品预测结果：", Event.out sep50,
   Event.top1 s0,
   Event.outN "   置信度(%)" (p0 * 100),
   Event.out "   理由："] ++
  [Event.out ("\n   冰箱库存：" ++ (if inventory.isEmpty then "无特定食材" else joinComma inventory)),
   Event.out ("\n📋 如果要煲【" ++ s0 ++ "】：")] ++
  match e.history with
  | none => [Event.fatal historyFatalMsg]
  | some hist =>
    explainBody s0 e.featureColumns inventory hist ++
    altEvents soups top3probs ++
    [Event.out sep50, Event.out "💡 提示：预测基于历史数据，妈妈实际选择可能受心情影响！",
     Event.out sep50] ++
    savePhase e dateStr s0 p0 temp

/-- predict.py lines 24–98: the input prompts in source order with their
fallbacks, feature construction, and the classifier call, ending in the
result section.  Uncaught exceptions (`strptime` at lines 36 and 58,
`float` at line 50, the reindex at line 89) end the trace. -/
def inputAndPredict (e : Env) : List Event :=
  let dateStr := resolveDateStr e.dateInput e.now
  (Event.out "\n📅 请输入明天的信息：" ::
    (if strip e.dateInput = "" then [Event.out ("   使用默认：" ++ dateStr)] else [])) ++
  match resolveWeekday e.weekdayInput dateStr with
  | none => [Event.fatal dateParseMsg]
  | some wd =>
    ((if strip e.weekdayInput = "" then [Event.out ("   自动判断：星期" ++ wd)] else []) ++
     [Event.out "\n天气选项：晴(3), 多云(2), 阴(1), 雨(0)",
      Event.outN "   编码" (weatherCode (strip e.weatherInput))] ++
     match parseQ (resolveTempStr e.tempInput) with
     | none => [Event.fatal tempParseMsg]
     | some temp =>
       Event.outN "   温度(°C)" temp ::
       Event.out ("   是否周末：" ++ (if isWeekendOf wd = 1 then "是" else "否")) ::
       match parseYMD dateStr with
       | none => [Event.fatal dateParseMsg]
       | some ymd =>
         let m := ymd.2.1
         let season := seasonOf m
         Event.out ("   月份：" ++ natToStr m ++ "月，季节编码：" ++ natToStr season) ::
         Event.out "\n🥬 冰箱现在有什么食材？（输入学过的食材，用逗号分隔）" ::
         Event.out ("   可选食材：" ++
           joinComma ((e.featureColumns.filter isIngCol).map ingName)) ::
         let inventory := parseInventory (strip e.inventoryInput)
         Event.out "\n🔧 分析中..." ::
         match tomorrowFeatures e.featureColumns temp (weatherCode (strip e.weatherInput))
             m season (isWeekendOf wd) inventory with
         | none => [Event.fatal keyErrorMsg]
         | some _ =>
           outputPhase e inventory (isWeekendOf wd) (weatherCode (strip e.weatherInput))
             temp dateStr)

/-- predict.py, whole script: banner, artifact loading (lines 13–21, where a
missing artifact prints the remediation message and exits before any
prediction), then the interactive prediction run. -/
def predictorRun (e : Env) : List Event :=
  [Event.out "🔮 SoupAIDD 预测系统启动！", Event.out sep50] ++
  if e.modelPresent && e.encoderPresent && e.schemaPresent then
    Event.out "✅ AI模型加载成功！" ::
    Event.out ("   已学习汤品：" ++ joinComma e.classes) ::
    inputAndPredict e
  else
    [Event.out loadFailMsg, Event.exited]

/-! ### The Trainer (train_model.py)

The sklearn calls are external collaborators.  `train_test_split` with
`test_size=0.2` is modelled from the spec and the sklearn contract: the test
partition holds `ceil(0.2 · n)` records, and the stratified variant raises
`ValueError` exactly when some label has too few members to stratify (fewer
than two occurrences) — the situation the script's `except ValueError`
branch exists for (train_model.py lines 54–60). -/

/-- Modelled from the spec: stratified splitting is feasible iff every label
occurs at least twice in the record set. -/
def stratifyFeasible (labels : List String) : Bool :=
  labels.all (fun l => 2 ≤ labels.count l)

/-- Modelled from the spec: sklearn's held-out size for `test_size=0.2`,
`ceil(n / 5)`. -/
def testCount (n : ℕ) : ℕ := (n + 4) / 5

/-- Outcome of the data-split step (train_model.py lines 48–65). -/
inductive Split where
  | evaluated (stratified : Bool) (trainN testN : ℕ)
  | skipped (trainN : ℕ)
deriving DecidableEq

/-- train_model.py lines 48–65: with at least 15 records, hold out 20%,
stratified when feasible and by an unstratified random split otherwise
(the `except ValueError` fallback); with fewer records, fit on everything
and skip evaluation. -/
def trainSplit (recs : List HRecord) : Split :=
  if 15 ≤ recs.length then
    if stratifyFeasible (recs.map (fun r => r.soup)) then
      Split.evaluated true (recs.length - testCount recs.length) (testCount recs.length)
    else
      Split.evaluated false (recs.length - testCount recs.length) (testCount recs.length)
  else Split.skipped recs.length

/-- Message for `RandomForestClassifier.fit` raising on an empty training
partition (train_model.py line 80): sklearn's `fit` rejects 0 samples with
`ValueError`, the spec's "empty input → fatal" failure mode (§4.3). -/
def fitEmptyMsg : String := "ValueError: found array with 0 samples (model.fit)"

/-- train_model.py, whole script, as a trace: the history load (line 14,
fatal when the file is absent), the split step with its console reporting,
the fit at line 80 — which raises `ValueError` when the training partition
is empty, i.e. exactly when the record set is empty (the `n ≥ 15` branches
always keep at least 12 training rows), so nothing after it runs and no
artifact is persisted — then the evaluation or its reported skip, and the
persistence of the matched artifact triple (lines 120–129).  Console lines
that carry no information relevant to the verified claims (feature counts,
the feature-importance table, the closing self-test) are elided. -/
def trainerRun (history : Option (List HRecord)) : List Event :=
  Event.out "🤖 开始训练汤品预测AI..." ::
  match history with
  | none => [Event.fatal historyFatalMsg]
  | some recs =>
    Event.outN "📊 加载数据（条历史记录）" (recs.length : ℚ) ::
    Event.out "\n🔧 准备训练数据..." ::
    (match trainSplit recs with
     | Split.evaluated true tr te =>
       [Event.out ("   训练集：" ++ natToStr tr ++ "条，测试集：" ++ natToStr te ++ "条")]
     | Split.evaluated false tr te =>
       [Event.out "   注意：某些汤品记录太少（只喝过1次），无法分层测试",
        Event.out ("   改用随机划分：训练集" ++ natToStr tr ++ "条，测试集" ++ natToStr te ++ "条")]
     | Split.skipped n =>
       [Event.out ("   数据较少（" ++ natToStr n ++ "条），全部用于学习（暂不测试准确率）")]) ++
    [Event.out "\n🎯 开始训练随机森林模型..."] ++
    (if recs.isEmpty then [Event.fatal fitEmptyMsg]
     else
       [Event.out "   ✅ 模型训练完成！"] ++
       (match trainSplit recs with
        | Split.evaluated _ _ _ => [Event.out "\n📈 模型评估："]
        | Split.skipped _ =>
          [Event.out "\n⚠️  数据量小，跳过评估（建议积累20条以上数据再评估）"]) ++
       [Event.out "\n💾 保存模型文件...",
        Event.saved "soup_predictor_model.pkl",
        Event.saved "label_encoder.pkl",
        Event.saved "feature_columns.pkl",
        Event.out "   ✅ 模型已保存：soup_predictor_model.pkl",
        Event.out "   ✅ 标签映射已保存：label_encoder.pkl"])

/-! ### Concrete instances used to exercise the model -/

/-- A schema of the shape the Trainer persists. -/
def demoCols : List String := baseCols ++ ["食材_排骨", "食材_玉米"]

/-- A complete environment: artifacts present, an (empty-but-present)
history file, every prompt answered. -/
def envBase : Env :=
  { modelPresent := true, encoderPresent := true, schemaPresent := true,
    classes := ["老火汤", "冬瓜汤"],
    featureColumns := demoCols,
    history := some [],
    now := (2024, 1, 31),
    dateInput := "2024-02-03", weekdayInput := "6", weatherInput := "雨",
    tempInput := "10", inventoryInput := "排骨, 玉米", saveAnswer := "n",
    probs := [mkRat 7 10, mkRat 3 10] }

/-- Artifacts missing. -/
def envC7 : Env := { envBase with modelPresent := false }

/-- History file missing. -/
def envC3 : Env := { envBase with history := none }

/-- A malformed, non-blank date answer. -/
def envC8 : Env := { envBase with dateInput := "2月1日" }

/-- A probability vector with a tie at the top (classes 0 and 1 equal). -/
def pTie : List ℚ := [mkRat 1 2, mkRat 1 2]

/-- A four-class probability vector with a tie at the top. -/
def pEx : List ℚ := [mkRat 2 5, mkRat 2 5, mkRat 3 20, mkRat 1 20]

/-- Ingredient-only schema for the pantry-diff scenario. -/
def colsC5 : List String := ["食材_排骨", "食材_玉米", "食材_胡萝卜"]

/-- Three historical records of the same soup: pork ribs and corn always
present, carrot in two of three. -/
def histC5 : List HRecord :=
  [⟨"玉米排骨汤", [("食材_排骨", 1), ("食材_玉米", 1), ("食材_胡萝卜", 1)]⟩,
   ⟨"玉米排骨汤", [("食材_排骨", 1), ("食材_玉米", 1), ("食材_胡萝卜", 1)]⟩,
   ⟨"玉米排骨汤", [("食材_排骨", 1), ("食材_玉米", 1), ("食材_胡萝卜", 0)]⟩]

/-- A 10-record history (below the evaluation threshold of 15). -/
def hist10 : List HRecord :=
  (List.range 10).map (fun i => ⟨if i % 2 = 0 then "A汤" else "B汤", [("食材_排骨", 1)]⟩)

/-- A 16-record history in which label `C汤` appears exactly once, making a
stratified split infeasible. -/
def hist16 : List HRecord :=
  ⟨"C汤", [("食材_排骨", 1)]⟩ ::
    (List.range 15).map (fun i => ⟨if i % 2 = 0 then "A汤" else "B汤", [("食材_排骨", 1)]⟩)

/-- A 20-record history with two labels, ten records each. -/
def hist20 : List HRecord :=
  (List.range 20).map (fun i => ⟨if i % 2 = 0 then "A汤" else "B汤", [("食材_排骨", 1)]⟩)

/-- Rows of the top soup with a 0/1 ingredient matrix: the count of rows in
which an ingredient is present. -/
def countOnes (rows : List HRecord) (c : String) : ℕ :=
  (rows.filter (fun r => getCol r c = 1)).length

/-- The strict "ranks below" order on class indices induced by a
probability vector: smaller probability, or equal probability and smaller
index.  The amended C2 ordering statement is phrased with it. -/
def idxBelow (p : List ℚ) (i j : ℕ) : Prop :=
  p.getD i 0 < p.getD j 0 ∨ (p.getD i 0 = p.getD j 0 ∧ i < j)

/-! ## Theorems -/

/-- C9: every Predictor console prompt has a default or fallback on empty
input: a blank date resolves to tomorrow (current date + 1 day), a blank
weekday is derived from the resolved date via `isoweekday`, an unrecognized
or blank weather string falls back to the mid-level code 2, a blank
temperature falls back to the string "20" (parsed to 20), and a blank
pantry answer yields the empty inventory — none of these fail. -/
theorem C9_prompt_defaults (d w t inv : String) (now : Date) (ds : String) (ymd : Date) :
    (strip d = "" → resolveDateStr d now = fmtDate (nextDay now)) ∧
    (strip w = "" → parseYMD ds = some ymd →
      resolveWeekday w ds = some (strOfDigit (isoweekday ymd))) ∧
    (∀ s : String, weatherMap.find? (fun p => p.1 = s) = none → weatherCode s = 2) ∧
    weatherCode "" = 2 ∧
    (strip t = "" → resolveTempStr t = "20" ∧ parseQ (resolveTempStr t) = some 20) ∧
    (strip inv = "" → parseInventory (strip inv) = []) := by
  refine ⟨fun h => by simp [resolveDateStr, h],
    fun h hp => by simp [resolveWeekday, h, hp],
    fun s h => by simp [weatherCode, h],
    by decide,
    fun h => ?_,
    fun h => by rw [h]; decide⟩
  have h1 : resolveTempStr t = "20" := by simp [resolveTempStr, h]
  exact ⟨h1, by rw [h1]; decide⟩

/-- C9 witness: the defaults at concrete blank/unrecognized inputs. -/
theorem C9_witness :
    resolveDateStr "" (2024, 1, 31) = "2024-02-01" ∧
    resolveWeekday " " "2024-02-01" = some "4" ∧
    weatherCode "雾" = 2 ∧ weatherCode "" = 2 ∧
    parseQ (resolveTempStr "  ") = some 20 ∧
    parseInventory "" = [] :=
  ⟨((C9_prompt_defaults "" " " "  " "" (2024, 1, 31) "2024-02-01" (2024, 2, 1)).1
      (by decide)).trans (by decide),
   ((C9_prompt_defaults "" " " "  " "" (2024, 1, 31) "2024-02-01" (2024, 2, 1)).2.1
      (by decide) (by decide)).trans (by decide),
   (C9_prompt_defaults "" " " "  " "" (2024, 1, 31) "2024-02-01" (2024, 2, 1)).2.2.1
      "雾" (by decide),
   (C9_prompt_defaults "" " " "  " "" (2024, 1, 31) "2024-02-01" (2024, 2, 1)).2.2.2.1,
   ((C9_prompt_defaults "" " " "  " "" (2024, 1, 31) "2024-02-01" (2024, 2, 1)).2.2.2.2.1
      (by decide)).2,
   (C9_prompt_defaults "" " " "  " "" (2024, 1, 31) "2024-02-01" (2024, 2, 1)).2.2.2.2.2
      (by decide)⟩

/-- C10: the weekend flag is an exact string comparison of the entered
weekday with "6" or "7": any other entry — including out-of-range digits or
words — silently yields 0, the flag is always 0 or 1 (never an error), and a
user-supplied weekday is never checked against the entered date (the
resolved weekday does not depend on the date string at all). -/
theorem C10_weekend_flag :
    (∀ w : String, ¬(w = "6" ∨ w = "7") → isWeekendOf w = 0) ∧
    isWeekendOf "8" = 0 ∧ isWeekendOf "Saturday" = 0 ∧ isWeekendOf "星期六" = 0 ∧
    (∀ w ds₁ ds₂ : String, strip w ≠ "" → resolveWeekday w ds₁ = resolveWeekday w ds₂) ∧
    (∀ w : String, isWeekendOf w = 0 ∨ isWeekendOf w = 1) := by
  refine ⟨fun w h => by simp [isWeekendOf, h], by decide, by decide, by decide,
    fun w ds₁ ds₂ h => by simp [resolveWeekday, h], fun w => ?_⟩
  by_cases h : w = "6" ∨ w = "7"
  · exact Or.inr (by simp [isWeekendOf, h])
  · exact Or.inl (by simp [isWeekendOf, h])

/-- C10 witness: concrete out-of-range entries give 0 and the resolution of
a non-blank weekday ignores the date string. -/
theorem C10_witness :
    isWeekendOf "8" = 0 ∧ isWeekendOf "Saturday" = 0 ∧
    resolveWeekday "8" "2024-02-01" = resolveWeekday "8" "not-a-date" :=
  ⟨C10_weekend_flag.1 "8" (by decide), C10_weekend_flag.2.2.1,
   C10_weekend_flag.2.2.2.2.1 "8" "2024-02-01" "not-a-date" (by decide)⟩

/-- C7: when any artifact of the trained triple is absent, the Predictor
prints the remediation message (directing the user to run train_model.py
first) and exits: the whole trace is the banner plus that message, and no
prediction (`top1`) and no numeric output is ever produced. -/
theorem C7_missing_artifact_aborts (e : Env)
    (h : (e.modelPresent && e.encoderPresent && e.schemaPresent) = false) :
    predictorRun e =
      [Event.out "🔮 SoupAIDD 预测系统启动！", Event.out sep50,
       Event.out loadFailMsg, Event.exited] ∧
    (∀ s, Event.top1 s ∉ predictorRun e) ∧
    (∀ s q, Event.outN s q ∉ predictorRun e) := by
  have h1 : predictorRun e =
      [Event.out "🔮 SoupAIDD 预测系统启动！", Event.out sep50,
       Event.out loadFailMsg, Event.exited] := by
    simp [predictorRun, h]
  refine ⟨h1, fun s => ?_, fun s q => ?_⟩ <;> rw [h1] <;> simp

/-- C7 witness: the concrete environment with the classifier artifact
missing aborts with the remediation message and produces no prediction. -/
theorem C7_witness :
    predictorRun envC7 =
      [Event.out "🔮 SoupAIDD 预测系统启动！", Event.out sep50,
       Event.out loadFailMsg, Event.exited] ∧
    Event.top1 "老火汤" ∉ predictorRun envC7 :=
  ⟨(C7_missing_artifact_aborts envC7 (by decide)).1,
   (C7_missing_artifact_aborts envC7 (by decide)).2.1 "老火汤"⟩

/-- C1: the rationale rules themselves are additive over the input features
(in `envBase` the weekday is 6, the weather code 0 and the temperature 10,
so all three applicable rules fire and all three rationales are collected),
but the script never prints the collected list: the run prints the bare
label `理由：` (predict.py line 107) and none of the rationale strings of
lines 110–118 ever appears in the output trace. -/
theorem C1_rationale_never_printed :
    reasons 1 0 10 =
      ["周末时间充裕，适合煲老火汤", "天气阴/雨，适合暖身汤品", "气温较低，需要温补"] ∧
    Event.out "   理由：" ∈ predictorRun envBase ∧
    Event.top1 "老火汤" ∈ predictorRun envBase ∧
    Event.out "周末时间充裕，适合煲老火汤" ∉ predictorRun envBase ∧
    Event.out "天气阴/雨，适合暖身汤品" ∉ predictorRun envBase ∧
    Event.out "气温较低，需要温补" ∉ predictorRun envBase ∧
    Event.out "天气炎热，适合清淡解腻" ∉ predictorRun envBase := by decide

/-- The value of one schema column is defined for every ingredient column
and equals the pantry-membership indicator. -/
theorem encodeCol_ing {c : String} (temp wc : ℚ) (m season iw : ℕ)
    (inventory : List String) (hc : isIngCol c = true) :
    encodeCol temp wc m season iw inventory c =
      some (if inventory.contains (ingName c) then 1 else 0) := by
  have h1 : c ≠ "温度" := by rintro rfl; exact absurd hc (by decide)
  have h2 : c ≠ "天气编码" := by rintro rfl; exact absurd hc (by decide)
  have h3 : c ≠ "月份" := by rintro rfl; exact absurd hc (by decide)
  have h4 : c ≠ "季节编码" := by rintro rfl; exact absurd hc (by decide)
  have h5 : c ≠ "是否周末" := by rintro rfl; exact absurd hc (by decide)
  have h6 : c ≠ "反馈分数" := by rintro rfl; exact absurd hc (by decide)
  simp [encodeCol, h1, h2, h3, h4, h5, h6, hc]

/-- On a valid schema column the encoding never fails. -/
theorem encodeCol_isSome {c : String} (temp wc : ℚ) (m season iw : ℕ)
    (inventory : List String) (hc : (baseCols.contains c || isIngCol c) = true) :
    (encodeCol temp wc m season iw inventory c).isSome = true := by
  rcases (by simpa using hc : baseCols.contains c = true ∨ isIngCol c = true) with hb | hi
  · have hmem : c ∈ baseCols := by simpa using hb
    fin_cases hmem <;> simp [encodeCol]
  · rw [encodeCol_ing temp wc m season iw inventory hi]
    rfl

/-- Sequencing succeeds when every column succeeds. -/
theorem optionMapAll_isSome {f : α → Option β} {l : List α}
    (h : ∀ a ∈ l, (f a).isSome = true) : (optionMapAll f l).isSome = true := by
  induction l with
  | nil => rfl
  | cons a l ih =>
    have ha := h a (List.mem_cons_self a l)
    obtain ⟨b, hb⟩ := Option.isSome_iff_exists.mp ha
    obtain ⟨bs, hbs⟩ := Option.isSome_iff_exists.mp (ih (fun x hx => h x (List.mem_cons_of_mem a hx)))
    simp [optionMapAll, hb, hbs]

/-- Sequencing preserves length. -/
theorem optionMapAll_length {f : α → Option β} {l : List α} {v : List β}
    (h : optionMapAll f l = some v) : v.length = l.length := by
  induction l generalizing v with
  | nil => simp [optionMapAll] at h; simp [← h]
  | cons a l ih =>
    simp only [optionMapAll] at h
    rcases hfa : f a with _ | b <;> rw [hfa] at h
    · exact absurd h (by simp)
    · rcases hrest : optionMapAll f l with _ | bs <;> rw [hrest] at h
      · exact absurd h (by simp)
      · simp only [Option.some.injEq] at h
        subst h
        simp [ih hrest]

/-- Sequencing is positionally exact: entry `i` of the result is the
encoding of column `i`. -/
theorem optionMapAll_get? {f : α → Option β} {l : List α} {v : List β}
    (h : optionMapAll f l = some v) : ∀ i : ℕ, v.get? i = (l.get? i).bind f := by
  induction l generalizing v with
  | nil =>
    simp [optionMapAll] at h
    subst h
    intro i
    simp
  | cons a l ih =>
    simp only [optionMapAll] at h
    rcases hfa : f a with _ | b <;> rw [hfa] at h
    · exact absurd h (by simp)
    · rcases hrest : optionMapAll f l with _ | bs <;> rw [hrest] at h
      · exact absurd h (by simp)
      · simp only [Option.some.injEq] at h
        subst h
        intro i
        cases i with
        | zero => simp [hfa]
        | succ i => simpa using ih hrest i

/-- Sequencing only depends on the pointwise encodings. -/
theorem optionMapAll_congr {f g : α → Option β} {l : List α}
    (h : ∀ a ∈ l, f a = g a) : optionMapAll f l = optionMapAll g l := by
  induction l with
  | nil => rfl
  | cons a l ih =>
    simp only [optionMapAll]
    rw [h a (List.mem_cons_self a l), ih (fun x hx => h x (List.mem_cons_of_mem a hx))]

/-- C6: for a valid feature schema the encoded vector exists, has exactly
the schema's length, its entries follow the schema order position by
position, each ingredient column encodes to 1 exactly when its name is in
the pantry (else 0), and a pantry name matching no schema ingredient is
silently ignored — adding it changes nothing. -/
theorem C6_encode (cols : List String) (temp wc : ℚ) (m season iw : ℕ)
    (inventory : List String) (hv : validSchemaB cols = true) :
    (tomorrowFeatures cols temp wc m season iw inventory).isSome = true ∧
    ((tomorrowFeatures cols temp wc m season iw inventory).getD []).length = cols.length ∧
    (∀ i : ℕ, ((tomorrowFeatures cols temp wc m season iw inventory).getD []).get? i
        = (cols.get? i).bind (encodeCol temp wc m season iw inventory)) ∧
    (∀ c : String, isIngCol c = true →
      encodeCol temp wc m season iw inventory c
        = some (if inventory.contains (ingName c) then 1 else 0)) ∧
    (∀ x : String,
      (cols.all (fun c => !(isIngCol c && decide (ingName c = x)))) = true →
      tomorrowFeatures cols temp wc m season iw (x :: inventory)
        = tomorrowFeatures cols temp wc m season iw inventory) := by
  have hsome : (tomorrowFeatures cols temp wc m season iw inventory).isSome = true := by
    apply optionMapAll_isSome
    intro c hc
    exact encodeCol_isSome temp wc m season iw inventory
      (by simpa using (List.all_eq_true.mp hv) c hc)
  obtain ⟨v, hveq⟩ := Option.isSome_iff_exists.mp hsome
  refine ⟨hsome, ?_, ?_, ?_, ?_⟩
  · rw [hveq]
    simpa using optionMapAll_length hveq
  · rw [hveq]
    simpa using optionMapAll_get? hveq
  · intro c hc
    exact encodeCol_ing temp wc m season iw inventory hc
  · intro x hx
    apply optionMapAll_congr
    intro c hc
    have hcx := List.all_eq_true.mp hx c hc
    by_cases hic : isIngCol c = true
    · have hne : ingName c ≠ x := by
        intro hEq
        rw [hic, decide_eq_true hEq] at hcx
        exact absurd hcx (by decide)
      by_cases hbase : c = "温度" ∨ c = "天气编码" ∨ c = "月份" ∨ c = "季节编码"
          ∨ c = "是否周末" ∨ c = "反馈分数"
      · rcases hbase with h | h | h | h | h | h <;> subst h <;> exact absurd hic (by decide)
      · push_neg at hbase
        obtain ⟨h1, h2, h3, h4, h5, h6⟩ := hbase
        simp [encodeCol, h1, h2, h3, h4, h5, h6, hic, List.contains_cons, hne,
          Ne.symm hne]
    · have hic' : isIngCol c = false := by simpa using hic
      simp [encodeCol, hic']

/-- C6 witness: on a concrete schema of the persisted shape, the encoding
succeeds, has the schema's length, places the ingredient indicators at the
schema's positions, and ignores an unknown pantry name. -/
theorem C6_witness :
    validSchemaB demoCols = true ∧
    ((tomorrowFeatures demoCols 10 0 2 4 1 ["排骨"]).getD []).length = demoCols.length ∧
    ((tomorrowFeatures demoCols 10 0 2 4 1 ["排骨"]).getD []).get? 6 = some 1 ∧
    ((tomorrowFeatures demoCols 10 0 2 4 1 ["排骨"]).getD []).get? 7 = some 0 ∧
    tomorrowFeatures demoCols 10 0 2 4 1 ("unknown" :: ["排骨"])
      = tomorrowFeatures demoCols 10 0 2 4 1 ["排骨"] :=
  ⟨by decide,
   (C6_encode demoCols 10 0 2 4 1 ["排骨"] (by decide)).2.1,
   ((C6_encode demoCols 10 0 2 4 1 ["排骨"] (by decide)).2.2.1 6).trans (by decide),
   ((C6_encode demoCols 10 0 2 4 1 ["排骨"] (by decide)).2.2.1 7).trans (by decide),
   (C6_encode demoCols 10 0 2 4 1 ["排骨"] (by decide)).2.2.2.2 "unknown" (by decide)⟩

/-- Stratification is infeasible exactly when some label occurs exactly
once. -/
theorem stratifyFeasible_eq_false_iff (labels : List String) :
    stratifyFeasible labels = false ↔ ∃ l ∈ labels, labels.count l = 1 := by
  unfold stratifyFeasible
  constructor
  · intro h
    obtain ⟨l, hl, hp⟩ := by simpa using List.all_eq_false.mp h
    refine ⟨l, hl, ?_⟩
    have h1 : 1 ≤ labels.count l := List.count_pos_iff.mpr hl
    omega
  · rintro ⟨l, hl, hcnt⟩
    apply List.all_eq_false.mpr
    exact ⟨l, hl, by simp [hcnt]⟩

/-- C4: the Trainer's split step.  With at least 15 records and every label
occurring at least twice, 20% (rounded up) is held out stratified; when some
label occurs exactly once the split falls back to the non-stratified random
split; with fewer than 15 records everything is used for fitting and the
skip is reported on the console rather than raised.  On every nonempty
record set the run reaches the end without a fatal event, reports the
evaluation skip when below the threshold, and persists the matched artifact
triple; on the empty record set the fit itself raises (the spec's
"empty input is fatal" mode) and nothing is persisted. -/
theorem C4_split (recs : List HRecord) :
    (15 ≤ recs.length → stratifyFeasible (recs.map (fun r => r.soup)) = true →
      trainSplit recs =
        Split.evaluated true (recs.length - testCount recs.length) (testCount recs.length)) ∧
    (15 ≤ recs.length →
      (∃ l ∈ recs.map (fun r => r.soup), (recs.map (fun r => r.soup)).count l = 1) →
      trainSplit recs =
        Split.evaluated false (recs.length - testCount recs.length) (testCount recs.length)) ∧
    (recs.length < 15 →
      trainSplit recs = Split.skipped recs.length ∧
      Event.out ("   数据较少（" ++ natToStr recs.length ++ "条），全部用于学习（暂不测试准确率）")
        ∈ trainerRun (some recs)) ∧
    (recs ≠ [] →
      (∀ msg : String, Event.fatal msg ∉ trainerRun (some recs)) ∧
      (recs.length < 15 →
        Event.out "\n⚠️  数据量小，跳过评估（建议积累20条以上数据再评估）" ∈ trainerRun (some recs)) ∧
      Event.saved "soup_predictor_model.pkl" ∈ trainerRun (some recs) ∧
      Event.saved "label_encoder.pkl" ∈ trainerRun (some recs) ∧
      Event.saved "feature_columns.pkl" ∈ trainerRun (some recs)) ∧
    (recs = [] →
      (trainerRun (some recs)).getLast? = some (Event.fatal fitEmptyMsg) ∧
      (∀ a : String, Event.saved a ∉ trainerRun (some recs))) := by
  refine ⟨fun h hf => by simp [trainSplit, h, hf],
    fun h hex => ?_, fun h => ?_, fun hne => ?_, fun hempty => ?_⟩
  · have hff := (stratifyFeasible_eq_false_iff _).mpr hex
    simp [trainSplit, h, hff]
  · have h15 : ¬ 15 ≤ recs.length := by omega
    have hsk : trainSplit recs = Split.skipped recs.length := by simp [trainSplit, h15]
    exact ⟨hsk, by simp [trainerRun, hsk]⟩
  · have hE : recs.isEmpty = false := by simpa [List.isEmpty_iff] using hne
    refine ⟨fun msg => ?_, fun hlt => ?_, ?_, ?_, ?_⟩
    · rcases hsp : trainSplit recs with ⟨st, tr, te⟩ | n
      · cases st <;> simp [trainerRun, hsp, hE]
      · simp [trainerRun, hsp, hE]
    · have h15 : ¬ 15 ≤ recs.length := by omega
      have hsk : trainSplit recs = Split.skipped recs.length := by simp [trainSplit, h15]
      simp [trainerRun, hsk, hE]
    · rcases hsp : trainSplit recs with ⟨st, tr, te⟩ | n
      · cases st <;> simp [trainerRun, hsp, hE]
      · simp [trainerRun, hsp, hE]
    · rcases hsp : trainSplit recs with ⟨st, tr, te⟩ | n
      · cases st <;> simp [trainerRun, hsp, hE]
      · simp [trainerRun, hsp, hE]
    · rcases hsp : trainSplit recs with ⟨st, tr, te⟩ | n
      · cases st <;> simp [trainerRun, hsp, hE]
      · simp [trainerRun, hsp, hE]
  · subst hempty
    have hsk : trainSplit [] = Split.skipped 0 := by decide
    refine ⟨by decide, fun a => ?_⟩
    simp [trainerRun, hsk]

/-- C4 witness: a 20-record balanced history splits stratified 16/4, a
16-record history with a singleton label falls back to the random 12/4
split, a 10-record history skips evaluation while still persisting the
model triple and never raising, and the empty record set dies at the fit
with nothing persisted. -/
theorem C4_witness :
    trainSplit hist20 = Split.evaluated true 16 4 ∧
    trainSplit hist16 = Split.evaluated false 12 4 ∧
    trainSplit hist10 = Split.skipped 10 ∧
    Event.out "   数据较少（10条），全部用于学习（暂不测试准确率）" ∈ trainerRun (some hist10) ∧
    Event.out "\n⚠️  数据量小，跳过评估（建议积累20条以上数据再评估）" ∈ trainerRun (some hist10) ∧
    Event.saved "soup_predictor_model.pkl" ∈ trainerRun (some hist10) ∧
    Event.fatal historyFatalMsg ∉ trainerRun (some hist16) ∧
    (trainerRun (some ([] : List HRecord))).getLast? = some (Event.fatal fitEmptyMsg) :=
  ⟨((C4_split hist20).1 (by decide) (by decide)).trans (by decide),
   ((C4_split hist16).2.1 (by decide) (by decide)).trans (by decide),
   (((C4_split hist10).2.2.1 (by decide)).1).trans (by decide),
   (by decide : Event.out "   数据较少（10条），全部用于学习（暂不测试准确率）"
      = Event.out ("   数据较少（" ++ natToStr (List.length hist10) ++ "条），全部用于学习（暂不测试准确率）")) ▸
     ((C4_split hist10).2.2.1 (by decide)).2,
   ((C4_split hist10).2.2.2.1 (by decide)).2.1 (by decide),
   ((C4_split hist10).2.2.2.1 (by decide)).2.2.1,
   ((C4_split hist16).2.2.2.1 (by decide)).1 historyFatalMsg,
   ((C4_split []).2.2.2.2 rfl).1⟩

/-- With the history file absent, the result section prints the banner, the
top-1 recommendation, confidence, the rationale label and the pantry lines,
and then dies on the uncaught `FileNotFoundError` of the explanation step. -/
theorem outputPhase_hist_none (e : Env) (inv : List String) (iw : ℕ)
    (wc temp : ℚ) (ds : String) (hh : e.history = none) :
    outputPhase e inv iw wc temp ds =
      [Event.out sep50, Event.out "🍲 明天汤品预测结果：", Event.out sep50,
       Event.top1 (topSoup e.classes e.probs),
       Event.outN "   置信度(%)"
         (((top3Indices e.probs).map (fun i => e.probs.getD i 0)).getD 0 0 * 100),
       Event.out "   理由：",
       Event.out ("\n   冰箱库存：" ++ (if inv.isEmpty then "无特定食材" else joinComma inv)),
       Event.out ("\n📋 如果要煲【" ++ topSoup e.classes e.probs ++ "】：")] ++
      [Event.fatal historyFatalMsg] := by
  simp [outputPhase, hh, topSoup]

/-- A valid schema always encodes. -/
theorem tomorrowFeatures_isSome (cols : List String) (temp wc : ℚ)
    (m season iw : ℕ) (inv : List String) (hv : validSchemaB cols = true) :
    (tomorrowFeatures cols temp wc m season iw inv).isSome = true :=
  optionMapAll_isSome (fun c hc =>
    encodeCol_isSome _ _ _ _ _ _ (by simpa using (List.all_eq_true.mp hv) c hc))

/-- C3: with `history_cleaned.csv` absent, the Trainer dies immediately on
the load, and the Predictor still produces its ranked top-1 recommendation
— the probability-ranking step never touches the history file — before the
run dies, as its very last event, on the history read of the
missing-ingredients explanation step. -/
theorem C3_history_absent (e : Env) (ymd : Date) (t : ℚ)
    (hm : e.modelPresent = true) (he : e.encoderPresent = true)
    (hs : e.schemaPresent = true) (hh : e.history = none)
    (hd : parseYMD (resolveDateStr e.dateInput e.now) = some ymd)
    (ht : parseQ (resolveTempStr e.tempInput) = some t)
    (hv : validSchemaB e.featureColumns = true) :
    trainerRun e.history =
      [Event.out "🤖 开始训练汤品预测AI...", Event.fatal historyFatalMsg] ∧
    Event.top1 (topSoup e.classes e.probs) ∈ predictorRun e ∧
    (predictorRun e).getLast? = some (Event.fatal historyFatalMsg) := by
  have hload : (e.modelPresent && e.encoderPresent && e.schemaPresent) = true := by
    rw [hm, he, hs]; rfl
  have hop := fun inv iw wc ds => outputPhase_hist_none e inv iw wc t ds hh
  refine ⟨by rw [hh]; rfl, ?_, ?_⟩ <;>
  · by_cases hw : strip e.weekdayInput = ""
    · have hwres : resolveWeekday e.weekdayInput (resolveDateStr e.dateInput e.now)
          = some (strOfDigit (isoweekday ymd)) := by
        simp [resolveWeekday, hw, hd]
      have hfv := tomorrowFeatures_isSome e.featureColumns t
        (weatherCode (strip e.weatherInput)) ymd.2.1 (seasonOf ymd.2.1)
        (isWeekendOf (strOfDigit (isoweekday ymd)))
        (parseInventory (strip e.inventoryInput)) hv
      obtain ⟨v, hfv⟩ := Option.isSome_iff_exists.mp hfv
      by_cases hb : strip e.dateInput = "" <;>
        simp [predictorRun, hload, inputAndPredict, hwres, hw, hb, hd, ht, hfv, hop]
    · have hwres : resolveWeekday e.weekdayInput (resolveDateStr e.dateInput e.now)
          = some (strip e.weekdayInput) := by
        simp [resolveWeekday, hw]
      have hfv := tomorrowFeatures_isSome e.featureColumns t
        (weatherCode (strip e.weatherInput)) ymd.2.1 (seasonOf ymd.2.1)
        (isWeekendOf (strip e.weekdayInput))
        (parseInventory (strip e.inventoryInput)) hv
      obtain ⟨v, hfv⟩ := Option.isSome_iff_exists.mp hfv
      by_cases hb : strip e.dateInput = "" <;>
        simp [predictorRun, hload, inputAndPredict, hwres, hw, hb, hd, ht, hfv, hop]

/-- C3 witness: in the concrete environment with the history file missing,
the Trainer trace is exactly the fatal load, while the Predictor trace
contains the ranked top-1 recommendation and ends on the history read's
`FileNotFoundError`. -/
theorem C3_witness :
    trainerRun envC3.history =
      [Event.out "🤖 开始训练汤品预测AI...", Event.fatal historyFatalMsg] ∧
    Event.top1 "老火汤" ∈ predictorRun envC3 ∧
    (predictorRun envC3).getLast? = some (Event.fatal historyFatalMsg) :=
  ⟨(C3_history_absent envC3 (2024, 2, 3) 10 rfl rfl rfl rfl (by decide) (by decide)
      (by decide)).1,
   (by decide : Event.top1 "老火汤" = Event.top1 (topSoup envC3.classes envC3.probs)) ▸
     (C3_history_absent envC3 (2024, 2, 3) 10 rfl rfl rfl rfl (by decide) (by decide)
        (by decide)).2.1,
   (C3_history_absent envC3 (2024, 2, 3) 10 rfl rfl rfl rfl (by decide) (by decide)
      (by decide)).2.2⟩

/-- C8: a non-blank date answer that `strptime` cannot parse is fatal: the
date is used as entered (no default is substituted for it), the run's last
event is the raised `ValueError`, and no prediction is ever produced.  (The
temperature answer is assumed well-formed so that the run reaches the later
of the two `strptime` call sites as well.) -/
theorem C8_malformed_date (e : Env) (t : ℚ)
    (hm : e.modelPresent = true) (he : e.encoderPresent = true)
    (hs : e.schemaPresent = true)
    (hnb : strip e.dateInput ≠ "")
    (hbad : parseYMD (strip e.dateInput) = none)
    (ht : parseQ (resolveTempStr e.tempInput) = some t) :
    resolveDateStr e.dateInput e.now = strip e.dateInput ∧
    (predictorRun e).getLast? = some (Event.fatal dateParseMsg) ∧
    (∀ s, Event.top1 s ∉ predictorRun e) := by
  have hload : (e.modelPresent && e.encoderPresent && e.schemaPresent) = true := by
    rw [hm, he, hs]; rfl
  have hds : resolveDateStr e.dateInput e.now = strip e.dateInput := by
    simp [resolveDateStr, hnb]
  refine ⟨hds, ?_, ?_⟩ <;>
  · by_cases hw : strip e.weekdayInput = ""
    · have hwres : resolveWeekday e.weekdayInput (strip e.dateInput) = none := by
        simp [resolveWeekday, hw, hbad]
      simp [predictorRun, hload, inputAndPredict, hwres, hw, hds, hnb, hbad, ht]
    · have hwres : resolveWeekday e.weekdayInput (strip e.dateInput)
          = some (strip e.weekdayInput) := by
        simp [resolveWeekday, hw]
      simp [predictorRun, hload, inputAndPredict, hwres, hw, hds, hnb, hbad, ht]

/-- C8 witness: the concrete malformed date "2月1日" (with artifacts
present and a well-formed temperature) is used as entered, kills the run at
the `strptime` call, and no prediction is produced. -/
theorem C8_witness :
    resolveDateStr envC8.dateInput envC8.now = "2月1日" ∧
    (predictorRun envC8).getLast? = some (Event.fatal dateParseMsg) ∧
    Event.top1 "老火汤" ∉ predictorRun envC8 :=
  ⟨((C8_malformed_date envC8 10 rfl rfl rfl (by decide) (by decide) (by decide)).1).trans
      (by decide),
   (C8_malformed_date envC8 10 rfl rfl rfl (by decide) (by decide) (by decide)).2.1,
   (C8_malformed_date envC8 10 rfl rfl rfl (by decide) (by decide) (by decide)).2.2 "老火汤"⟩

/-- On a 0/1-valued column, the column sum is the number of rows holding
a 1. -/
theorem sum_eq_countOnes (rows : List HRecord) (c : String)
    (hbool : ∀ r ∈ rows, getCol r c = 0 ∨ getCol r c = 1) :
    (rows.map (fun r => getCol r c)).sum = (countOnes rows c : ℚ) := by
  induction rows with
  | nil => simp [countOnes]
  | cons r rows ih =>
    have hr := hbool r (List.mem_cons_self r rows)
    have ih' := ih (fun x hx => hbool x (List.mem_cons_of_mem r hx))
    rcases hr with h0 | h1
    · have hne1 : ¬ getCol r c = 1 := by rw [h0]; norm_num
      rw [List.map_cons, List.sum_cons, h0, zero_add, ih']
      norm_num [countOnes, List.filter_cons, hne1]
    · rw [List.map_cons, List.sum_cons, h1, ih']
      simp [countOnes, List.filter_cons, h1]
      ring

/-- Condition `mean > 0.5` over a nonempty 0/1 column is exactly "present in more
than half of the rows". -/
theorem mean_gt_half_iff (rows : List HRecord) (c : String) (hne : rows ≠ [])
    (hbool : ∀ r ∈ rows, getCol r c = 0 ∨ getCol r c = 1) :
    (mkRat 1 2 < colMean rows c) ↔ rows.length < 2 * countOnes rows c := by
  have hL : (0 : ℚ) < (rows.length : ℚ) := by
    have : 0 < rows.length := List.length_pos.mpr hne
    exact_mod_cast this
  have hmk : (mkRat 1 2 : ℚ) = 1 / 2 := by norm_num [Rat.mkRat_eq_div]
  rw [colMean, sum_eq_countOnes rows c hbool, hmk, div_lt_div_iff₀ (by norm_num) hL]
  constructor
  · intro h
    have : (rows.length : ℚ) < 2 * (countOnes rows c : ℚ) := by linarith
    exact_mod_cast this
  · intro h
    have : (rows.length : ℚ) < 2 * (countOnes rows c : ℚ) := by exact_mod_cast h
    linarith

/-- C5: for the top soup's historical rows (0/1 ingredient matrix,
nonempty), an ingredient column is classified typical exactly when it is
present in more than half of those rows; the missing list is exactly the
typical ingredients not contained in the pantry; and an empty missing list
makes the explanation step print the "ready to cook" line. -/
theorem C5_typical_missing (cols inventory : List String) (hist : List HRecord)
    (top : String)
    (hne : hist.filter (fun r => r.soup = top) ≠ [])
    (hbool : ∀ r ∈ hist.filter (fun r => r.soup = top), ∀ c ∈ cols,
      getCol r c = 0 ∨ getCol r c = 1) :
    (∀ c ∈ cols,
      (c ∈ typicalCols cols (hist.filter (fun r => r.soup = top)) ↔
        isIngCol c = true ∧
        (hist.filter (fun r => r.soup = top)).length
          < 2 * countOnes (hist.filter (fun r => r.soup = top)) c)) ∧
    (∀ x : String,
      x ∈ missingOf (typicalIngredients cols (hist.filter (fun r => r.soup = top))) inventory ↔
        (x ∈ typicalIngredients cols (hist.filter (fun r => r.soup = top)) ∧
          inventory.contains x = false)) ∧
    (missingOf (typicalIngredients cols (hist.filter (fun r => r.soup = top))) inventory = [] →
      Event.out "   ✅ 食材齐全，可以开煲！" ∈ explainBody top cols inventory hist) := by
  refine ⟨fun c hc => ?_, fun x => ?_, fun hmiss => ?_⟩
  · rw [typicalCols, List.mem_filter]
    simp only [hc, true_and, Bool.and_eq_true, decide_eq_true_eq]
    exact and_congr_right
      (fun _ => mean_gt_half_iff _ c hne (fun r hr => hbool r hr c hc))
  · simp [missingOf, List.mem_filter]
  · have hE : (hist.filter (fun r => r.soup = top)).isEmpty = false := by
      simpa [List.isEmpty_iff] using hne
    simp only [explainBody, hE, Bool.false_eq_true, if_false, hmiss]
    simp

/-- C5 witness: "pork ribs, corn" against a top soup whose typical set is
pork ribs + corn + carrot (carrot present in 2 of the 3 historical rows)
reports exactly the carrot as missing. -/
theorem C5_witness :
    "食材_胡萝卜" ∈ typicalCols colsC5 (histC5.filter (fun r => r.soup = "玉米排骨汤")) ∧
    "胡萝卜" ∈ missingOf
      (typicalIngredients colsC5 (histC5.filter (fun r => r.soup = "玉米排骨汤")))
      ["排骨", "玉米"] ∧
    "排骨" ∉ missingOf
      (typicalIngredients colsC5 (histC5.filter (fun r => r.soup = "玉米排骨汤")))
      ["排骨", "玉米"] ∧
    "玉米" ∉ missingOf
      (typicalIngredients colsC5 (histC5.filter (fun r => r.soup = "玉米排骨汤")))
      ["排骨", "玉米"] :=
  ⟨((C5_typical_missing colsC5 ["排骨", "玉米"] histC5 "玉米排骨汤" (by decide)
      (by decide)).1 "食材_胡萝卜" (by decide)).mpr ⟨by decide, by decide⟩,
   ((C5_typical_missing colsC5 ["排骨", "玉米"] histC5 "玉米排骨汤" (by decide)
      (by decide)).2.1 "胡萝卜").mpr
     ⟨List.mem_map.mpr ⟨"食材_胡萝卜",
        ((C5_typical_missing colsC5 ["排骨", "玉米"] histC5 "玉米排骨汤" (by decide)
          (by decide)).1 "食材_胡萝卜" (by decide)).mpr ⟨by decide, by decide⟩,
        by decide⟩,
      by decide⟩,
   fun h => absurd (((C5_typical_missing colsC5 ["排骨", "玉米"] histC5 "玉米排骨汤"
      (by decide) (by decide)).2.1 "排骨").mp h).2 (by decide),
   fun h => absurd (((C5_typical_missing colsC5 ["排骨", "玉米"] histC5 "玉米排骨汤"
      (by decide) (by decide)).2.1 "玉米").mp h).2 (by decide)⟩

/-- Inserting an index is, up to permutation, just consing it. -/
theorem insertIdx_perm (p : List ℚ) (i : ℕ) :
    ∀ acc : List ℕ, List.Perm (insertIdx p i acc) (i :: acc) := by
  intro acc
  induction acc with
  | nil => exact List.Perm.refl _
  | cons j rest ih =>
    by_cases h : p.getD j 0 ≤ p.getD i 0
    · simp only [insertIdx, if_pos h]
      exact (List.Perm.cons j ih).trans (List.Perm.swap i j rest)
    · simp only [insertIdx, if_neg h]
      exact List.Perm.refl _

/-- The fold underlying `argsortQ` permutes its inputs. -/
theorem foldl_insert_perm (p : List ℚ) (l : List ℕ) :
    ∀ acc : List ℕ,
      List.Perm (l.foldl (fun a i => insertIdx p i a) acc) (l ++ acc) := by
  induction l with
  | nil =>
    intro acc
    simp only [List.foldl_nil, List.nil_append]
    exact List.Perm.refl _
  | cons x l ih =>
    intro acc
    show List.Perm (l.foldl (fun a i => insertIdx p i a) (insertIdx p x acc))
      (x :: l ++ acc)
    have h1 := ih (insertIdx p x acc)
    have h2 : List.Perm (l ++ insertIdx p x acc) (l ++ (x :: acc)) :=
      List.Perm.append_left l (insertIdx_perm p x acc)
    have h3 : List.Perm (l ++ (x :: acc)) (x :: (l ++ acc)) := List.perm_middle
    exact (h1.trans h2).trans h3

/-- The list `argsortQ p` is a permutation of the index range. -/
theorem argsortQ_perm (p : List ℚ) :
    List.Perm (argsortQ p) (List.range p.length) := by
  have h := foldl_insert_perm p (List.range p.length) []
  simpa [argsortQ] using h

/-- The sort `argsortQ` keeps exactly the indices of `p`. -/
theorem mem_argsortQ (p : List ℚ) (j : ℕ) : j ∈ argsortQ p ↔ j < p.length := by
  rw [(argsortQ_perm p).mem_iff, List.mem_range]

/-- The list `argsortQ p` has one entry per probability. -/
theorem argsortQ_length (p : List ℚ) : (argsortQ p).length = p.length := by
  simpa using (argsortQ_perm p).length_eq

/-- Inserting an index arriving after every index already placed preserves
the strict (value, index)-lexicographic ascending order. -/
theorem insertIdx_pairwise (p : List ℚ) (i : ℕ) :
    ∀ acc : List ℕ, acc.Pairwise (idxBelow p) → (∀ j ∈ acc, j < i) →
      (insertIdx p i acc).Pairwise (idxBelow p) := by
  intro acc
  induction acc with
  | nil => intro _ _; simp [insertIdx, List.pairwise_cons]
  | cons j rest ih =>
    intro hacc hlt
    obtain ⟨hj, hrest⟩ := List.pairwise_cons.mp hacc
    by_cases h : p.getD j 0 ≤ p.getD i 0
    · simp only [insertIdx, if_pos h]
      rw [List.pairwise_cons]
      constructor
      · intro b hb
        rcases List.mem_cons.mp ((insertIdx_perm p i rest).mem_iff.mp hb) with hbi | hbr
        · subst hbi
          rcases lt_or_eq_of_le h with hlt' | heq
          · exact Or.inl hlt'
          · exact Or.inr ⟨heq, hlt j (List.mem_cons_self j rest)⟩
        · exact hj b hbr
      · exact ih hrest (fun x hx => hlt x (List.mem_cons_of_mem j hx))
    · simp only [insertIdx, if_neg h]
      have hij : p.getD i 0 < p.getD j 0 := lt_of_not_le h
      rw [List.pairwise_cons]
      refine ⟨fun b hb => ?_, hacc⟩
      rcases List.mem_cons.mp hb with hbj | hbr
      · subst hbj; exact Or.inl hij
      · rcases hj b hbr with hlt' | ⟨heq, _⟩
        · exact Or.inl (hij.trans hlt')
        · exact Or.inl (heq ▸ hij)

/-- The fold underlying `argsortQ` keeps the accumulator sorted when the
indices arrive in increasing order. -/
theorem foldl_insert_pairwise (p : List ℚ) (l : List ℕ) :
    ∀ acc : List ℕ, acc.Pairwise (idxBelow p) → (∀ a ∈ acc, ∀ b ∈ l, a < b) →
      l.Pairwise (· < ·) →
      (l.foldl (fun a i => insertIdx p i a) acc).Pairwise (idxBelow p) := by
  induction l with
  | nil => intro acc hacc _ _; exact hacc
  | cons x l ih =>
    intro acc hacc hbound hl
    obtain ⟨hx, hl'⟩ := List.pairwise_cons.mp hl
    refine ih (insertIdx p x acc) ?_ ?_ hl'
    · exact insertIdx_pairwise p x acc hacc
        (fun j hj => hbound j hj x (List.mem_cons_self x l))
    · intro a ha b hb
      rcases List.mem_cons.mp ((insertIdx_perm p x acc).mem_iff.mp ha) with hax | haa
      · subst hax; exact hx b hb
      · exact hbound a haa b (List.mem_cons_of_mem x hb)

/-- The list `argsortQ p` is sorted strictly ascending by (value, index): equal
values keep the lower index first. -/
theorem argsortQ_pairwise (p : List ℚ) : (argsortQ p).Pairwise (idxBelow p) := by
  refine foldl_insert_pairwise p (List.range p.length) [] List.Pairwise.nil
    (by simp) (List.pairwise_lt_range p.length)

/-- C2 counterexample: two classes with equal probability are reported with
the HIGHER class index first — `top3Indices [1/2, 1/2] = [1, 0]`, not
`[0, 1]` as a lower-index-first stable tie-break would give: the reversal
`[::-1]` of the stable ascending argsort puts the later index on top. -/
theorem C2_tie_counterexample :
    pTie.getD 0 0 = pTie.getD 1 0 ∧ top3Indices pTie = [1, 0] ∧
    top3Indices pTie ≠ [0, 1] := by decide

/-- C2 amended: the reported top-3 consists of `min 3 n` valid class
indices, it is sorted descending by probability with ties broken stably by
the original class index with the HIGHER index first (the reverse of the
stable ascending argsort), and it dominates: every class index left out
ranks below every reported one in the (probability, index) order. -/
theorem C2_amended_top3 (p : List ℚ) :
    (top3Indices p).length = min 3 p.length ∧
    (∀ i ∈ top3Indices p, i < p.length) ∧
    List.Pairwise (fun i j => idxBelow p j i) (top3Indices p) ∧
    (∀ j, j < p.length → j ∉ top3Indices p →
      ∀ i ∈ top3Indices p, idxBelow p j i) := by
  refine ⟨?_, ?_, ?_, ?_⟩
  · simp [top3Indices, argsortQ_length]
    omega
  · intro i hi
    have : i ∈ argsortQ p := by
      have h1 : i ∈ (argsortQ p).drop (p.length - 3) := by
        simpa [top3Indices] using hi
      exact (List.drop_sublist _ _).mem h1
    exact (mem_argsortQ p i).mp this
  · rw [top3Indices, List.pairwise_reverse]
    exact ((argsortQ_pairwise p).sublist (List.drop_sublist _ _))
  · intro j hj hnot i hi
    have hsplit := List.take_append_drop (p.length - 3) (argsortQ p)
    have hpw : ((argsortQ p).take (p.length - 3)
        ++ (argsortQ p).drop (p.length - 3)).Pairwise (idxBelow p) := by
      rw [hsplit]; exact argsortQ_pairwise p
    have hjmem : j ∈ argsortQ p := (mem_argsortQ p j).mpr hj
    have hjmem' : j ∈ (argsortQ p).take (p.length - 3)
        ∨ j ∈ (argsortQ p).drop (p.length - 3) := by
      rw [← hsplit] at hjmem
      exact List.mem_append.mp hjmem
    have hjtake : j ∈ (argsortQ p).take (p.length - 3) := by
      rcases hjmem' with h | h
      · exact h
      · exact absurd (by simpa [top3Indices] using h) hnot
    have hidrop : i ∈ (argsortQ p).drop (p.length - 3) := by
      simpa [top3Indices] using hi
    exact (List.pairwise_append.mp hpw).2.2 j hjtake i hidrop

/-- C2 amended witness: on a four-class vector with a tie at the top the
reported list is `[1, 0, 2]` (tie reported higher-index-first), it has
length `min 3 4`, and the left-out class 3 ranks below the reported class
0. -/
theorem C2_amended_witness :
    (top3Indices pEx).length = min 3 pEx.length ∧
    top3Indices pEx = [1, 0, 2] ∧
    idxBelow pEx 3 0 :=
  ⟨(C2_amended_top3 pEx).1, by decide,
   (C2_amended_top3 pEx).2.2.2 3 (by decide) (by decide) 0 (by decide)⟩

end SoupAIDD
